import Mathlib

/-!
# Verification of the TokenFetch contract-source fetcher

A shallow embedding of `src/main.rs` of the TokenFetch tool.  The tool
resolves a chain alias to an explorer configuration, scaffolds a project
directory, fetches a verified contract's source from the explorer API and
writes the decoded source files to disk.

The embedding models:
* JSON values and the subset of JSON parsing the tool exercises
  (objects, arrays, strings with simple escapes, integers, literals),
  standing in for the `serde_json` parser;
* the pure helper functions `get_chain_config`, `build_url` and the
  status-checking part of `fetch_contract_source`;
* the effectful `main` pipeline as a function from a `World` (environment
  variables, filesystem/subprocess/network responses) to the ordered list
  of filesystem/subprocess/network `Effect`s it performs, together with
  its `Except` outcome.  A Rust `panic`/`unwrap` is modelled as an error
  (for `main`) or `Option.none` (for the per-entry write step).

Machine integers never overflow in the source (the only numeric is the
static chain id), so `Int` is used directly.
-/

set_option autoImplicit false

/-- JSON values, as decoded by `serde_json::Value`.  Objects keep their
fields as an association list in parse order. -/
inductive Json where
  | null
  | bool (b : Bool)
  | num (n : Int)
  | str (s : String)
  | arr (elems : List Json)
  | obj (fields : List (String × Json))

/-- First-match lookup of a field in an object's field list. -/
def lookupField : List (String × Json) → String → Json
  | [], _ => Json.null
  | (k, v) :: rest, key => if k = key then v else lookupField rest key

/-- `serde_json` `Value` indexing `j[key]`: a field lookup on objects,
`Null` on everything else (and on a missing field). -/
def Json.index (j : Json) (key : String) : Json :=
  match j with
  | Json.obj fields => lookupField fields key
  | _ => Json.null

/-- `Value::as_str`: `Some` exactly on JSON strings. -/
def Json.asStr : Json → Option String
  | Json.str s => some s
  | _ => none

/-- `Value::as_array`: `Some` exactly on JSON arrays. -/
def Json.asArray : Json → Option (List Json)
  | Json.arr xs => some xs
  | _ => none

/-- `Value::as_object`: `Some` exactly on JSON objects. -/
def Json.asObject : Json → Option (List (String × Json))
  | Json.obj fields => some fields
  | _ => none

/-- Skip JSON whitespace. -/
def skipWs : List Char → List Char
  | [] => []
  | c :: rest =>
    if c = ' ' ∨ c = '\n' ∨ c = '\t' ∨ c = '\r' then skipWs rest else c :: rest

/-- Does `pat` occur at the head of the second list? -/
def startsWithCL : List Char → List Char → Bool
  | [], _ => true
  | _ :: _, [] => false
  | p :: ps, c :: cs => p == c && startsWithCL ps cs

/-- Rust `str::contains(pat)`: does `pat` occur as a contiguous substring? -/
def containsSub (pat : List Char) : List Char → Bool
  | [] => startsWithCL pat []
  | c :: rest => startsWithCL pat (c :: rest) || containsSub pat rest

/-- Rust `str::replace` specialised to a two-character pattern replaced by
one character: non-overlapping matches are replaced left to right. -/
def replaceTwo (p1 p2 r : Char) : List Char → List Char
  | [] => []
  | [c1] => [c1]
  | c1 :: c2 :: rest =>
    if c1 = p1 ∧ c2 = p2 then r :: replaceTwo p1 p2 r rest
    else c1 :: replaceTwo p1 p2 r (c2 :: rest)

/-- Decode a single JSON string escape character. -/
def escChar (e : Char) : Option Char :=
  if e = 'n' then some '\n'
  else if e = 't' then some '\t'
  else if e = 'r' then some '\r'
  else if e = '"' then some '"'
  else if e = '\\' then some '\\'
  else if e = '/' then some '/'
  else if e = 'b' then some '\x08'
  else if e = 'f' then some '\x0c'
  else none

/-- Parse the body of a JSON string (after the opening quote), returning
the decoded characters and the input remaining after the closing quote. -/
def parseStrBody : List Char → Option (List Char × List Char)
  | [] => none
  | c :: rest =>
    if c = '"' then some ([], rest)
    else if c = '\\' then
      match rest with
      | [] => none
      | e :: rest2 =>
        match escChar e with
        | none => none
        | some ch =>
          match parseStrBody rest2 with
          | none => none
          | some (cs, r) => some (ch :: cs, r)
    else
      match parseStrBody rest with
      | none => none
      | some (cs, r) => some (c :: cs, r)

/-- Take a maximal run of decimal digits. -/
def takeDigits : List Char → List Char × List Char
  | [] => ([], [])
  | c :: rest =>
    if c.isDigit then
      match takeDigits rest with
      | (ds, r) => (c :: ds, r)
    else ([], c :: rest)

/-- Numeric value of a digit run. -/
def digitsVal (ds : List Char) : Nat :=
  ds.foldl (fun acc c => 10 * acc + (c.toNat - 48)) 0

/-- Parser mode: a full value, the members of an object after `&#123;`, or the
elements of an array after `[`. -/
inductive PMode where
  | value
  | objRest
  | arrRest

/-- Fuel-indexed recursive-descent JSON parser covering the subset of
JSON the tool exchanges with the explorer API: objects, arrays, strings
with simple escapes, (optionally negated) integer numbers and the three
literals.  Returns the parsed value and the remaining input. -/
def parseCore : Nat → PMode → List Char → Option (Json × List Char)
  | 0, _, _ => none
  | Nat.succ fuel, PMode.value, input =>
    match skipWs input with
    | [] => none
    | c :: rest =>
      if c = '"' then
        match parseStrBody rest with
        | some (cs, r) => some (Json.str (String.mk cs), r)
        | none => none
      else if c = '\x7b' then
        parseCore fuel PMode.objRest rest
      else if c = '[' then
        parseCore fuel PMode.arrRest rest
      else if c = 't' then
        if startsWithCL ['r', 'u', 'e'] rest then some (Json.bool true, rest.drop 3)
        else none
      else if c = 'f' then
        if startsWithCL ['a', 'l', 's', 'e'] rest then some (Json.bool false, rest.drop 4)
        else none
      else if c = 'n' then
        if startsWithCL ['u', 'l', 'l'] rest then some (Json.null, rest.drop 3)
        else none
      else if c = '-' then
        match takeDigits rest with
        | ([], _) => none
        | (ds, r) => some (Json.num (-(Int.ofNat (digitsVal ds))), r)
      else if c.isDigit then
        match takeDigits (c :: rest) with
        | ([], _) => none
        | (ds, r) => some (Json.num (Int.ofNat (digitsVal ds)), r)
      else none
  | Nat.succ fuel, PMode.objRest, input =>
    match skipWs input with
    | '\x7d' :: rest => some (Json.obj [], rest)
    | '"' :: rest =>
      match parseStrBody rest with
      | none => none
      | some (k, r1) =>
        match skipWs r1 with
        | ':' :: r2 =>
          match parseCore fuel PMode.value r2 with
          | none => none
          | some (v, r3) =>
            match skipWs r3 with
            | ',' :: r4 =>
              match parseCore fuel PMode.objRest r4 with
              | some (Json.obj fields, r5) => some (Json.obj ((String.mk k, v) :: fields), r5)
              | _ => none
            | '\x7d' :: r4 => some (Json.obj [(String.mk k, v)], r4)
            | _ => none
        | _ => none
    | _ => none
  | Nat.succ fuel, PMode.arrRest, input =>
    match skipWs input with
    | ']' :: rest => some (Json.arr [], rest)
    | _ =>
      match parseCore fuel PMode.value input with
      | none => none
      | some (v, r1) =>
        match skipWs r1 with
        | ',' :: r2 =>
          match parseCore fuel PMode.arrRest r2 with
          | some (Json.arr es, r3) => some (Json.arr (v :: es), r3)
          | _ => none
        | ']' :: r2 => some (Json.arr [v], r2)
        | _ => none

/-- `serde_json::from_str`: parse a whole string as one JSON value. -/
def Json.parse (s : String) : Option Json :=
  match parseCore (2 * s.toList.length + 8) PMode.value s.toList with
  | some (j, r) =>
    match skipWs r with
    | [] => some j
    | _ => none
  | none => none

/-- ASCII lowercasing, modelling `str::to_lowercase` on the ASCII alias
strings the tool compares against. -/
def lowerStr (s : String) : String :=
  String.mk (s.toList.map Char.toLower)

/-- Explorer configuration for a supported chain (`struct ChainConfig`). -/
structure ChainConfig where
  api_key_env : String
  api_url : String
  chain_id : Int
deriving DecidableEq

/-- The configuration returned for the alias `eth`. -/
def ethCfg : ChainConfig :=
  { api_key_env := "ETHERSCAN_API_KEY"
    api_url := "https://api.etherscan.io/api"
    chain_id := 1 }

/-- The configuration returned for the alias `base`. -/
def baseCfg : ChainConfig :=
  { api_key_env := "BASESCAN_API_KEY"
    api_url := "https://api.basescan.org/api"
    chain_id := 8453 }

/-- `get_chain_config`: case-insensitive lookup of a chain alias. -/
def get_chain_config (chain : String) : Option ChainConfig :=
  match lowerStr chain with
  | "eth" => some ethCfg
  | "base" => some baseCfg
  | _ => none

/-- `build_url`: the explorer request URL. -/
def build_url (config : ChainConfig) (address api_key : String) : String :=
  config.api_url ++ "?module=contract&action=getsourcecode&address=" ++ address
    ++ "&apikey=" ++ api_key

/-- The API-level status check inside `fetch_contract_source`: an error
when the envelope's `status` field is a string other than `"1"`, surfacing
`message` and `result` with fallback texts; otherwise the envelope itself. -/
def checkStatus (json : Json) : Except String Json :=
  match Json.asStr (Json.index json "status") with
  | some status =>
    if status ≠ "1" then
      Except.error ("API error: "
        ++ Option.getD (Json.asStr (Json.index json "message")) "Unknown error"
        ++ " - "
        ++ Option.getD (Json.asStr (Json.index json "result")) "No additional info")
    else Except.ok json
  | none => Except.ok json

/-- `fetch_contract_source`, given the HTTP response body: parse the body
as JSON (a parse failure is fatal) and apply the status check. -/
def fetch_contract_source (body : String) : Except String Json :=
  match Json.parse body with
  | none => Except.error "invalid JSON response body"
  | some json => checkStatus json

/-- Rust `str::split('/')` on the character list: always returns at least
one (possibly empty) segment. -/
def splitSlash : List Char → List (List Char)
  | [] => [[]]
  | c :: rest =>
    match splitSlash rest with
    | [] => [[]]
    | s :: ss => if c = '/' then [] :: s :: ss else (c :: s) :: ss

/-- The path key split on `/`, as strings (`key.split('/').collect()`). -/
def splitPath (s : String) : List String :=
  (splitSlash s.toList).map String.mk

/-- Push a list of path components onto a base path (`PathBuf::push`). -/
def joinParts (base : String) : List String → String
  | [] => base
  | p :: ps => joinParts (base ++ "/" ++ p) ps

/-- Effects `main` performs on the world, in order. -/
inductive Effect where
  | createDir (p : String)
  | forgeInit (p : String)
  | removeFile (p : String)
  | httpGet (url : String)
  | createDirAll (p : String)
  | writeFile (p : String) (content : String)
deriving DecidableEq

/-- The cumulative `create_dir_all` effects of pushing each leading
directory segment in turn onto `base`. -/
def cumDirs (base : String) : List String → List Effect
  | [] => []
  | d :: ds => Effect.createDirAll (base ++ "/" ++ d) :: cumDirs (base ++ "/" ++ d) ds

/-- One iteration of the file-writing loop for entry `(key, value)`:
split the key on `/`, create every leading directory segment, then write
the file only when `value["content"]` is a string.  `none` models the
panic of `parts.last().unwrap()` on an empty segment list. -/
def entryEffects (src_path key : String) (value : Json) : Option (List Effect) :=
  match (splitPath key).getLast? with
  | none => none
  | some _ =>
    let dirEffs := cumDirs src_path (splitPath key).dropLast
    let filePath := joinParts src_path (splitPath key)
    match Json.asStr (Json.index value "content") with
    | some content => some (dirEffs ++ [Effect.writeFile filePath content])
    | none => some dirEffs

/-- The whole file-writing loop over the decoded sources map. -/
def writeEffectsOpt (src_path : String) : List (String × Json) → Option (List Effect)
  | [] => some []
  | (k, v) :: rest =>
    match entryEffects src_path k v with
    | none => none
    | some l =>
      match writeEffectsOpt src_path rest with
      | none => none
      | some L => some (l ++ L)

/-- Does the string start with `&#123;` (Rust `starts_with('&#123;')`)? -/
def startsWithBrace (s : String) : Bool :=
  match s.toList with
  | [] => false
  | c :: _ => c == '\x7b'

/-- The double-open-brace pattern `&#123;&#123;` searched for by the tool. -/
def dblOpen : List Char := ['\x7b', '\x7b']

/-- `source_code.replace("&#123;&#123;", "&#123;").replace("&#125;&#125;", "&#125;")`: collapse doubled
opening braces, then doubled closing braces. -/
def cleanBraces (s : String) : String :=
  String.mk (replaceTwo '\x7d' '\x7d' '\x7d' (replaceTwo '\x7b' '\x7b' '\x7b' s.toList))

/-- Extract the `sources` object from a parsed multi-file contract value:
a parse failure and a missing/non-object `sources` field are both fatal. -/
def sourcesOfParsed : Option Json → Except String (List (String × Json))
  | none => Except.error "invalid JSON in SourceCode"
  | some contract =>
    match Json.asObject (Json.index contract "sources") with
    | none => Except.error "No sources object in contract"
    | some m => Except.ok m

/-- Decoding of a non-empty `SourceCode` string (`main`, the
`let sources = ...` block): multi-file JSON mode when it starts with `&#123;`
(normalising doubled braces first when `&#123;&#123;` occurs), otherwise a
single-file map with the fixed name `Single.sol`. -/
def decodeSources (source_code : String) : Except String (List (String × Json)) :=
  if startsWithBrace source_code then
    sourcesOfParsed
      (if containsSub dblOpen source_code.toList then Json.parse (cleanBraces source_code)
       else Json.parse source_code)
  else
    Except.ok [("Single.sol", Json.obj [("content", Json.str source_code)])]

/-- One entry produced by walking the skeleton's `src` directory:
either an error entry or a path (its full string form) with a file flag. -/
structure WalkEntry where
  ok : Bool
  path : String
  isFile : Bool
deriving DecidableEq

/-- The pattern `Counter` of placeholder files. -/
def counterPat : List Char := "Counter".toList

/-- The placeholder-cleanup loop: remove every successfully-walked file
whose full path string contains `Counter` (walk errors are logged only). -/
def removeCounterEffects (entries : List WalkEntry) : List Effect :=
  entries.filterMap (fun e =>
    if e.ok && e.isFile && containsSub counterPat e.path.toList then
      some (Effect.removeFile e.path)
    else none)

/-- The parsed CLI arguments (`struct Args`). -/
structure Args where
  chain : String
  address : String
  path : String

/-- The ambient world `main` interacts with: environment variables, the
pre-existence of the target path, the scaffolding subprocess outcome, the
directory walk of the skeleton's `src` directory and the HTTP body the
explorer returns. -/
structure World where
  envVar : String → Option String
  pathExists : Bool
  forgeSuccess : Bool
  srcEntries : List WalkEntry
  httpBody : String

/-- The `main` pipeline: the ordered effects performed on the world and
the final outcome.  Panics (`expect`, `unwrap_or_else`, `panic`, indexing
`result[0]` out of bounds) are modelled as `Except.error`. -/
def runMain (args : Args) (w : World) : List Effect × Except String Unit :=
  match get_chain_config args.chain with
  | none => ([], Except.error "Unsupported chain")
  | some config =>
    match w.envVar config.api_key_env with
    | none => ([], Except.error (config.api_key_env ++ " environment variable not set"))
    | some api_key =>
      if w.pathExists then ([], Except.error "Path already exists")
      else
        let preEffects := [Effect.createDir args.path, Effect.forgeInit args.path]
        if w.forgeSuccess = false then (preEffects, Except.error "Forge initialization failed")
        else
          let src_path := args.path ++ "/src"
          let fetched := preEffects ++ removeCounterEffects w.srcEntries
            ++ [Effect.httpGet (build_url config args.address api_key)]
          match fetch_contract_source w.httpBody with
          | Except.error msg => (fetched, Except.error msg)
          | Except.ok json =>
            match Json.asArray (Json.index json "result") with
            | none => (fetched, Except.error "No result array in response")
            | some [] => (fetched, Except.error "index out of bounds")
            | some (first :: _) =>
              match Json.asStr (Json.index first "SourceCode") with
              | none => (fetched, Except.error "No source code in response")
              | some source_code =>
                if source_code = "" then
                  (fetched, Except.error "Contract source code is empty")
                else
                  match decodeSources source_code with
                  | Except.error msg => (fetched, Except.error msg)
                  | Except.ok sources =>
                    match writeEffectsOpt src_path sources with
                    | none => (fetched, Except.error "no filename segment in source path")
                    | some ws => (fetched ++ ws, Except.ok ())

/-- The double-braced example `SourceCode` from the explorer. -/
def exDoubleBraced : String :=
  "\x7b\x7b\"sources\": \x7b\x7b\"A.sol\": \x7b\x7b\"content\": \"z\"\x7d\x7d\x7d\x7d\x7d\x7d"

/-- Its brace-normalised form. -/
def exNormalized : String :=
  "\x7b\"sources\": \x7b\"A.sol\": \x7b\"content\": \"z\"\x7d\x7d\x7d"

theorem splitSlash_ne_nil (l : List Char) : splitSlash l ≠ [] := by
  cases l with
  | nil => simp [splitSlash]
  | cons c rest =>
    unfold splitSlash
    cases h : splitSlash rest with
    | nil => simp
    | cons s ss =>
      simp only [h]
      split <;> simp

theorem splitPath_ne_nil (s : String) : splitPath s ≠ [] := by
  unfold splitPath
  intro h
  exact splitSlash_ne_nil _ (List.map_eq_nil_iff.mp h)

theorem entryEffects_eq (src key : String) (value : Json) :
    entryEffects src key value =
      some (cumDirs src (splitPath key).dropLast ++
        (match Json.asStr (Json.index value "content") with
         | some content => [Effect.writeFile (joinParts src (splitPath key)) content]
         | none => [])) := by
  cases hsp : splitPath key with
  | nil => exact absurd hsp (splitPath_ne_nil key)
  | cons p ps =>
    unfold entryEffects
    rw [hsp]
    cases hc : Json.asStr (Json.index value "content") <;> simp [List.getLast?]

theorem cumDirs_shape (base : String) (ds : List String) (e : Effect)
    (h : e ∈ cumDirs base ds) : ∃ q, e = Effect.createDirAll q := by
  induction ds generalizing base with
  | nil => simp [cumDirs] at h
  | cons d rest ih =>
    simp only [cumDirs, List.mem_cons] at h
    rcases h with h | h
    · exact ⟨base ++ "/" ++ d, h⟩
    · exact ih _ h

theorem writeEffectsOpt_isSome (src : String) (sources : List (String × Json)) :
    ∃ L, writeEffectsOpt src sources = some L := by
  induction sources with
  | nil => exact ⟨[], rfl⟩
  | cons kv rest ih =>
    obtain ⟨L, hL⟩ := ih
    obtain ⟨k, v⟩ := kv
    refine ⟨(cumDirs src (splitPath k).dropLast ++
      (match Json.asStr (Json.index v "content") with
       | some content => [Effect.writeFile (joinParts src (splitPath k)) content]
       | none => [])) ++ L, ?_⟩
    unfold writeEffectsOpt
    rw [entryEffects_eq, hL]

theorem removeCounterEffects_shape (entries : List WalkEntry) (e : Effect)
    (h : e ∈ removeCounterEffects entries) : ∃ p, e = Effect.removeFile p := by
  unfold removeCounterEffects at h
  rcases List.mem_filterMap.mp h with ⟨a, _, ha⟩
  by_cases hc : (a.ok && a.isFile && containsSub counterPat a.path.toList) = true
  · rw [if_pos hc] at ha
    exact ⟨a.path, (Option.some.inj ha).symm⟩
  · rw [if_neg hc] at ha
    cases ha

theorem get_chain_config_cases (chain : String) :
    get_chain_config chain =
      if lowerStr chain = "eth" then some ethCfg
      else if lowerStr chain = "base" then some baseCfg
      else none := by
  unfold get_chain_config
  split <;> simp_all

/-- C1: for a `SourceCode` string starting with a brace, the materializer
parses the brace-normalised string (every doubled opening and closing brace
collapsed) when the string contains a doubled opening brace, and the string
as-is otherwise; on the spec's double-braced example this yields exactly
one file `A.sol` with content `z`. -/
theorem C1_brace_normalization (s t : String)
    (hs1 : startsWithBrace s = true) (hs2 : containsSub dblOpen s.toList = true)
    (ht1 : startsWithBrace t = true) (ht2 : containsSub dblOpen t.toList = false) :
    decodeSources s = sourcesOfParsed (Json.parse (cleanBraces s)) ∧
    decodeSources t = sourcesOfParsed (Json.parse t) ∧
    cleanBraces exDoubleBraced = exNormalized ∧
    decodeSources exDoubleBraced = Except.ok [("A.sol", Json.obj [("content", Json.str "z")])] ∧
    writeEffectsOpt "proj/src" [("A.sol", Json.obj [("content", Json.str "z")])] =
      some [Effect.writeFile "proj/src/A.sol" "z"] := by
  have hs2' : containsSub dblOpen s.data = true := hs2
  have ht2' : containsSub dblOpen t.data = false := ht2
  refine ⟨?_, ?_, rfl, rfl, rfl⟩
  · simp [decodeSources, hs1, hs2']
  · simp [decodeSources, ht1, ht2']

/-- Witness for C1 at the spec's double-braced example and a plain
single-braced input. -/
theorem C1_brace_normalization_witness :
    decodeSources exDoubleBraced = Except.ok [("A.sol", Json.obj [("content", Json.str "z")])] :=
  (C1_brace_normalization exDoubleBraced "\x7b\"a\": 1\x7d" rfl rfl rfl rfl).2.2.2.1

/-- C2: a non-empty `SourceCode` string that does not start with a brace
is materialized as exactly one file `Single.sol` in the source root whose
content is the whole string, unchanged. -/
theorem C2_single_file_mode (s srcp : String) (h0 : s ≠ "")
    (h1 : startsWithBrace s = false) :
    decodeSources s = Except.ok [("Single.sol", Json.obj [("content", Json.str s)])] ∧
    writeEffectsOpt srcp [("Single.sol", Json.obj [("content", Json.str s)])] =
      some [Effect.writeFile (srcp ++ "/" ++ "Single.sol") s] := by
  have hsp : splitPath "Single.sol" = ["Single.sol"] := rfl
  constructor
  · simp [decodeSources, h1]
  · unfold writeEffectsOpt
    rw [entryEffects_eq]
    unfold writeEffectsOpt
    simp [hsp, Json.index, lookupField, Json.asStr, cumDirs, joinParts]

/-- Witness for C2 at the spec's example input `// hello`. -/
theorem C2_single_file_mode_witness :
    decodeSources "// hello" =
      Except.ok [("Single.sol", Json.obj [("content", Json.str "// hello")])] :=
  (C2_single_file_mode "// hello" "proj/src" (by decide) rfl).1

/-- C3: the status check of `fetch_contract_source` errors exactly when
the envelope's `status` field is a string other than `"1"`; the error
surfaces the `message` and `result` fields with fallback texts, and when
the check passes the whole envelope is returned unchanged. -/
theorem C3_status_check (json : Json) :
    ((∃ m, checkStatus json = Except.error m) ↔
      ∃ s, Json.asStr (Json.index json "status") = some s ∧ s ≠ "1") ∧
    ((¬ ∃ s, Json.asStr (Json.index json "status") = some s ∧ s ≠ "1") →
      checkStatus json = Except.ok json) ∧
    (∀ s, Json.asStr (Json.index json "status") = some s → s ≠ "1" →
      checkStatus json = Except.error ("API error: "
        ++ Option.getD (Json.asStr (Json.index json "message")) "Unknown error"
        ++ " - "
        ++ Option.getD (Json.asStr (Json.index json "result")) "No additional info")) := by
  unfold checkStatus
  cases hst : Json.asStr (Json.index json "status") with
  | none => simp
  | some s =>
    by_cases hs : s = "1"
    · subst hs
      simp
    · simp [hs]

/-- Witness for C3 at an envelope with `status` `"0"` and no `message`
or `result` fields. -/
theorem C3_status_check_witness :
    checkStatus (Json.obj [("status", Json.str "0")]) =
      Except.error "API error: Unknown error - No additional info" :=
  (C3_status_check (Json.obj [("status", Json.str "0")])).2.2 "0" rfl (by decide)

/-- C4: the chain resolver is case-insensitive and recognises exactly the
aliases `eth` (etherscan, chain id 1, `ETHERSCAN_API_KEY`) and `base`
(basescan, chain id 8453, `BASESCAN_API_KEY`); for any other string it
returns no configuration and the run stops with no effect at all (no
directory creation, no subprocess, no network request). -/
theorem C4_chain_resolver (chain : String) (args : Args) (w : World) :
    (get_chain_config chain = some ethCfg ↔ lowerStr chain = "eth") ∧
    (get_chain_config chain = some baseCfg ↔ lowerStr chain = "base") ∧
    (get_chain_config chain = none ↔
      ¬(lowerStr chain = "eth" ∨ lowerStr chain = "base")) ∧
    (get_chain_config args.chain = none →
      runMain args w = ([], Except.error "Unsupported chain")) := by
  have hne : ethCfg ≠ baseCfg := by decide
  refine ⟨?_, ?_, ?_, ?_⟩
  · rw [get_chain_config_cases]
    by_cases h1 : lowerStr chain = "eth" <;> by_cases h2 : lowerStr chain = "base" <;>
      simp [h1, h2, hne.symm]
  · rw [get_chain_config_cases]
    by_cases h1 : lowerStr chain = "eth" <;> by_cases h2 : lowerStr chain = "base" <;>
      simp [h1, h2, hne]
  · rw [get_chain_config_cases]
    by_cases h1 : lowerStr chain = "eth" <;> by_cases h2 : lowerStr chain = "base" <;>
      simp [h1, h2]
  · intro h
    unfold runMain
    rw [h]

/-- Witness for C4: the upper-case alias `ETH` resolves to the etherscan
configuration. -/
theorem C4_chain_resolver_witness :
    get_chain_config "ETH" = some ethCfg :=
  ((C4_chain_resolver "ETH" ⟨"eth", "0xabc", "proj"⟩
    ⟨fun _ => none, false, true, [], ""⟩).1).mpr rfl

/-- C5: when the target path already exists the run fails with no effect
at all: no directory is created, the scaffolding subprocess is never
invoked and no network request is made. -/
theorem C5_existing_path (args : Args) (w : World) (h : w.pathExists = true) :
    (runMain args w).1 = [] ∧ ∃ m, (runMain args w).2 = Except.error m := by
  unfold runMain
  cases hc : get_chain_config args.chain with
  | none => simp
  | some config =>
    cases he : w.envVar config.api_key_env with
    | none => simp [he]
    | some k => simp [he, h]

/-- Witness for C5 at a concrete world whose target path exists. -/
theorem C5_existing_path_witness :
    (runMain ⟨"eth", "0xabc", "proj"⟩ ⟨fun _ => some "K", true, true, [], ""⟩).1 = [] :=
  (C5_existing_path ⟨"eth", "0xabc", "proj"⟩ ⟨fun _ => some "K", true, true, [], ""⟩ rfl).1

/-- C6: a run that reaches the source-code check with an empty
`SourceCode` string fails with the fatal message `Contract source code is
empty`, and its effect trace contains no file write. -/
theorem C6_empty_source (args : Args) (w : World) (cfg : ChainConfig) (key : String)
    (json first : Json) (rest : List Json)
    (h1 : get_chain_config args.chain = some cfg)
    (h2 : w.envVar cfg.api_key_env = some key)
    (h3 : w.pathExists = false)
    (h4 : w.forgeSuccess = true)
    (h5 : fetch_contract_source w.httpBody = Except.ok json)
    (h6 : Json.asArray (Json.index json "result") = some (first :: rest))
    (h7 : Json.asStr (Json.index first "SourceCode") = some "") :
    (runMain args w).2 = Except.error "Contract source code is empty" ∧
    ∀ p c, Effect.writeFile p c ∉ (runMain args w).1 := by
  have hrun : runMain args w =
      ([Effect.createDir args.path, Effect.forgeInit args.path]
        ++ removeCounterEffects w.srcEntries
        ++ [Effect.httpGet (build_url cfg args.address key)],
       Except.error "Contract source code is empty") := by
    simp [runMain, h1, h2, h3, h4, h5, h6, h7]
  constructor
  · rw [hrun]
  · intro p c hmem
    rw [hrun] at hmem
    rcases List.mem_append.mp hmem with h12 | h3
    · rcases List.mem_append.mp h12 with hpre | hrem
      · simp at hpre
      · rcases removeCounterEffects_shape _ _ hrem with ⟨q, hq⟩
        exact Effect.noConfusion hq
    · simp at h3

/-- Witness for C6 at a concrete world whose explorer response carries an
empty `SourceCode`. -/
theorem C6_empty_source_witness :
    (runMain ⟨"eth", "0xabc", "proj"⟩
      ⟨fun v => if v = "ETHERSCAN_API_KEY" then some "K" else none, false, true, [],
        "\x7b\"result\":[\x7b\"SourceCode\":\"\"\x7d]\x7d"⟩).2 =
      Except.error "Contract source code is empty" :=
  (C6_empty_source ⟨"eth", "0xabc", "proj"⟩
    ⟨fun v => if v = "ETHERSCAN_API_KEY" then some "K" else none, false, true, [],
      "\x7b\"result\":[\x7b\"SourceCode\":\"\"\x7d]\x7d"⟩
    ethCfg "K"
    (Json.obj [("result", Json.arr [Json.obj [("SourceCode", Json.str "")]])])
    (Json.obj [("SourceCode", Json.str "")]) []
    rfl rfl rfl rfl rfl rfl rfl).1

/-- C7: a sources entry without a usable string-valued `content` field is
silently skipped — its loop iteration succeeds and emits no file write —
and the write loop as a whole never fails, whatever the entries hold. -/
theorem C7_skip_missing_content (src k : String) (v : Json)
    (sources : List (String × Json))
    (h : Json.asStr (Json.index v "content") = none) :
    entryEffects src k v = some (cumDirs src (splitPath k).dropLast) ∧
    (∀ e ∈ cumDirs src (splitPath k).dropLast, ∀ p c, e ≠ Effect.writeFile p c) ∧
    ∃ L, writeEffectsOpt src sources = some L := by
  refine ⟨?_, ?_, writeEffectsOpt_isSome src sources⟩
  · rw [entryEffects_eq, h]
    simp
  · intro e he p c hcontra
    rcases cumDirs_shape _ _ _ he with ⟨q, hq⟩
    rw [hcontra] at hq
    exact Effect.noConfusion hq

/-- Witness for C7 at an entry whose value has no `content` field. -/
theorem C7_skip_missing_content_witness :
    entryEffects "proj/src" "A.sol" (Json.obj []) = some [] :=
  (C7_skip_missing_content "proj/src" "A.sol" (Json.obj [])
    [("A.sol", Json.obj []), ("B.sol", Json.obj [("content", Json.str "x")])] rfl).1

/-- C8 counterexample: the cleanup removes a walked file whose file name
(`Main.sol`, the last path segment) does not contain `Counter`, because
the enclosing directory path does — refuting the claim that only files
whose own name contains the token are deleted. -/
theorem C8_counterexample :
    removeCounterEffects [⟨true, "MyCounter/src/Main.sol", true⟩] =
      [Effect.removeFile "MyCounter/src/Main.sol"] ∧
    containsSub counterPat (List.getLastD (splitPath "MyCounter/src/Main.sol") "").toList
      = false :=
  ⟨rfl, rfl⟩

/-- C8 (amended): the cleanup deletes exactly the successfully-walked
files whose full path string contains `Counter`; every other walked entry
is left intact. -/
theorem C8_path_based_removal (entries : List WalkEntry) (p : String) :
    Effect.removeFile p ∈ removeCounterEffects entries ↔
      ∃ e, e ∈ entries ∧ e.ok = true ∧ e.isFile = true ∧
        containsSub counterPat e.path.toList = true ∧ e.path = p := by
  unfold removeCounterEffects
  rw [List.mem_filterMap]
  constructor
  · rintro ⟨a, ha, hfa⟩
    by_cases hc : (a.ok && a.isFile && containsSub counterPat a.path.toList) = true
    · rw [if_pos hc] at hfa
      have hpa : a.path = p := by
        injection hfa with h
        injection h
      simp only [Bool.and_eq_true] at hc
      exact ⟨a, ha, hc.1.1, hc.1.2, hc.2, hpa⟩
    · rw [if_neg hc] at hfa
      cases hfa
  · rintro ⟨e, he, h1, h2, h3, rfl⟩
    have h3' : containsSub counterPat e.path.data = true := h3
    exact ⟨e, he, by simp [h1, h2, h3']⟩

/-- Witness for C8 (amended): a placeholder file whose own name contains
`Counter` is removed. -/
theorem C8_path_based_removal_witness :
    Effect.removeFile "proj/src/Counter.sol" ∈
      removeCounterEffects [⟨true, "proj/src/Counter.sol", true⟩] :=
  (C8_path_based_removal [⟨true, "proj/src/Counter.sol", true⟩]
    "proj/src/Counter.sol").mpr
    ⟨⟨true, "proj/src/Counter.sol", true⟩, by simp, rfl, rfl, rfl, rfl⟩

/-- C9: splitting a path key on `/` always yields at least one segment,
the loop iteration never panics taking the last segment, and every
leading segment's directory-creation effect precedes the file write. -/
theorem C9_split_always_has_filename (src key : String) (value : Json) :
    splitPath key ≠ [] ∧
    entryEffects src key value =
      some (cumDirs src (splitPath key).dropLast ++
        (match Json.asStr (Json.index value "content") with
         | some content => [Effect.writeFile (joinParts src (splitPath key)) content]
         | none => [])) :=
  ⟨splitPath_ne_nil key, entryEffects_eq src key value⟩

/-- Witness for C9 at a nested path key with a string content field. -/
theorem C9_split_always_has_filename_witness :
    entryEffects "proj/src" "a/B.sol" (Json.obj [("content", Json.str "x")]) =
      some [Effect.createDirAll "proj/src/a", Effect.writeFile "proj/src/a/B.sol" "x"] :=
  (C9_split_always_has_filename "proj/src" "a/B.sol"
    (Json.obj [("content", Json.str "x")])).2

/-- C10: even when an entry's value has no usable `content` string, all
of the leading directory segments of its path key are still created —
skipping suppresses only the file write, not the directory creation. -/
theorem C10_dirs_created_before_skip (src key : String) (value : Json)
    (h : Json.asStr (Json.index value "content") = none) :
    entryEffects src key value = some (cumDirs src (splitPath key).dropLast) ∧
    ∀ content, Effect.writeFile (joinParts src (splitPath key)) content ∉
      cumDirs src (splitPath key).dropLast := by
  constructor
  · rw [entryEffects_eq, h]
    simp
  · intro content hmem
    rcases cumDirs_shape _ _ _ hmem with ⟨q, hq⟩
    exact Effect.noConfusion hq

/-- Witness for C10 at a nested path key whose value lacks `content`:
the directory is still created and nothing is written. -/
theorem C10_dirs_created_before_skip_witness :
    entryEffects "proj/src" "dir/B.sol" (Json.obj [("abi", Json.str "x")]) =
      some [Effect.createDirAll "proj/src/dir"] :=
  (C10_dirs_created_before_skip "proj/src" "dir/B.sol"
    (Json.obj [("abi", Json.str "x")]) rfl).1
